import Mathlib

/-!
Shallow embedding of the organizational digital-twin simulation engine:
the economic cycle model, virtual-customer population, competitive
landscape, messaging/negotiation subsystem and the day scheduler,
translated from `src/core/advanced_market.py`,
`src/core/communication_system.py` and
`src/core/organizational_simulator.py`.

Python floats are modelled as rationals (`ℚ`); a NumPy aggregate that can
be NaN is modelled by the `NpFloat` type.  Calls to `random.uniform(a, b)`
are modelled by an explicit draw `u`, via `unif a b u = a + u * (b - a)`
with `u ∈ [0, 1]`; calls to `random.random()` are explicit draws compared
against the hardcoded thresholds.  Wall-clock timestamps are modelled as
naturals, and uuid generation as a fresh-id counter.
-/

namespace OrgTwin

/-! ## Economic cycle model (`EconomicCycleSimulator`) -/

/-- The `MarketPhase` enum of `advanced_market.py`. -/
inductive MarketPhase where
  | growth
  | recession
  | recovery
  | boom
  | stagnation
deriving DecidableEq, Repr

/-- The mutable state of `EconomicCycleSimulator`, with the indicator
fields set in `__init__`. -/
structure EconState where
  current_phase : MarketPhase
  phase_duration : ℕ
  interest_rates : ℚ
  inflation_rate : ℚ
  unemployment_rate : ℚ
  gdp_growth : ℚ
  market_volatility : ℚ
  tech_sector_performance : ℚ
deriving DecidableEq, Repr

/-- Initial state, from `EconomicCycleSimulator.__init__`. -/
def initEconState : EconState :=
  { current_phase := .growth
    phase_duration := 0
    interest_rates := 5/100
    inflation_rate := 3/100
    unemployment_rate := 4/100
    gdp_growth := 25/1000
    market_volatility := 1/10
    tech_sector_performance := 8/10 }

/-- Model of `random.uniform(a, b)` with an explicit draw `u ∈ [0, 1]`. -/
def unif (a b u : ℚ) : ℚ := a + u * (b - a)

/-- Model of `EconomicCycleSimulator._update_economic_indicators`: the if/elif
chain on the current phase; each firing branch redraws `gdp_growth`,
`unemployment_rate`, `interest_rates` and `tech_sector_performance`
inside hardcoded per-phase ranges.  `inflation_rate` and
`market_volatility` appear in no branch. -/
def updateEconomicIndicators (s : EconState) (u1 u2 u3 u4 : ℚ) : EconState :=
  match s.current_phase with
  | .growth =>
      { s with gdp_growth := unif (2/100) (4/100) u1
               unemployment_rate := unif (3/100) (6/100) u2
               interest_rates := unif (2/100) (6/100) u3
               tech_sector_performance := unif (7/10) (9/10) u4 }
  | .boom =>
      { s with gdp_growth := unif (4/100) (7/100) u1
               unemployment_rate := unif (2/100) (4/100) u2
               interest_rates := unif (1/100) (4/100) u3
               tech_sector_performance := unif (8/10) 1 u4 }
  | .recession =>
      { s with gdp_growth := unif (-3/100) (1/100) u1
               unemployment_rate := unif (6/100) (12/100) u2
               interest_rates := unif 0 (2/100) u3
               tech_sector_performance := unif (3/10) (6/10) u4 }
  | .recovery =>
      { s with gdp_growth := unif (1/100) (3/100) u1
               unemployment_rate := unif (5/100) (8/100) u2
               interest_rates := unif (1/100) (3/100) u3
               tech_sector_performance := unif (6/10) (8/10) u4 }
  | .stagnation =>
      { s with gdp_growth := unif (-1/100) (1/100) u1
               unemployment_rate := unif (5/100) (7/100) u2
               interest_rates := unif (2/100) (4/100) u3
               tech_sector_performance := unif (5/10) (7/10) u4 }

/-- One tick's worth of random draws for `advance_cycle`: the
`random.random()` transition draw `r` and the four `random.uniform`
indicator draws. -/
structure Draws where
  r : ℚ
  u1 : ℚ
  u2 : ℚ
  u3 : ℚ
  u4 : ℚ
deriving DecidableEq, Repr

/-- Model of `EconomicCycleSimulator.advance_cycle`: increments the phase
duration, runs the phase-transition elif chain (each transition gated by
a minimum duration and a fixed probability threshold on the draw `r`,
resetting the duration to zero on transition), then updates the
indicators. -/
def advanceCycle (s : EconState) (d : Draws) : EconState :=
  let dur := s.phase_duration + 1
  let pd : MarketPhase × ℕ :=
    if s.current_phase = .growth ∧ dur > 24 then
      if d.r < 3/10 then (.boom, 0) else (.growth, dur)
    else if s.current_phase = .boom ∧ dur > 12 then
      if d.r < 2/5 then (.recession, 0) else (.boom, dur)
    else if s.current_phase = .recession ∧ dur > 18 then
      if d.r < 1/2 then (.recovery, 0) else (.recession, dur)
    else if s.current_phase = .recovery ∧ dur > 15 then
      if d.r < 3/5 then (.growth, 0) else (.recovery, dur)
    else (s.current_phase, dur)
  updateEconomicIndicators
    { s with current_phase := pd.1, phase_duration := pd.2 } d.u1 d.u2 d.u3 d.u4

/-- Folding `advance_cycle` over a sequence of random draws from the
initial engine state. -/
def runCycle (ds : List Draws) : EconState := ds.foldl advanceCycle initEconState

/-- Per-phase lower bound of the `gdp_growth` redraw range. -/
def gdpLo : MarketPhase → ℚ
  | .growth => 2/100
  | .boom => 4/100
  | .recession => -3/100
  | .recovery => 1/100
  | .stagnation => -1/100

/-- Per-phase upper bound of the `gdp_growth` redraw range. -/
def gdpHi : MarketPhase → ℚ
  | .growth => 4/100
  | .boom => 7/100
  | .recession => 1/100
  | .recovery => 3/100
  | .stagnation => 1/100

/-- Per-phase lower bound of the `unemployment_rate` redraw range. -/
def unempLo : MarketPhase → ℚ
  | .growth => 3/100
  | .boom => 2/100
  | .recession => 6/100
  | .recovery => 5/100
  | .stagnation => 5/100

/-- Per-phase upper bound of the `unemployment_rate` redraw range. -/
def unempHi : MarketPhase → ℚ
  | .growth => 6/100
  | .boom => 4/100
  | .recession => 12/100
  | .recovery => 8/100
  | .stagnation => 7/100

/-- Per-phase lower bound of the `interest_rates` redraw range. -/
def ratesLo : MarketPhase → ℚ
  | .growth => 2/100
  | .boom => 1/100
  | .recession => 0
  | .recovery => 1/100
  | .stagnation => 2/100

/-- Per-phase upper bound of the `interest_rates` redraw range. -/
def ratesHi : MarketPhase → ℚ
  | .growth => 6/100
  | .boom => 4/100
  | .recession => 2/100
  | .recovery => 3/100
  | .stagnation => 4/100

/-- Per-phase lower bound of the `tech_sector_performance` redraw range. -/
def techLo : MarketPhase → ℚ
  | .growth => 7/10
  | .boom => 8/10
  | .recession => 3/10
  | .recovery => 6/10
  | .stagnation => 5/10

/-- Per-phase upper bound of the `tech_sector_performance` redraw range. -/
def techHi : MarketPhase → ℚ
  | .growth => 9/10
  | .boom => 1
  | .recession => 6/10
  | .recovery => 8/10
  | .stagnation => 7/10

/-! ## Virtual customers (`VirtualCustomer`) -/

/-- The `CustomerSegment` enum. -/
inductive CustomerSegment where
  | enterprise
  | mid_market
  | smb
  | startup
deriving DecidableEq, Repr

/-- The `VirtualCustomer` dataclass (feature preferences as an
association list). -/
structure VirtualCustomer where
  id : String
  name : String
  segment : CustomerSegment
  industry : String
  size : ℕ
  budget : ℚ
  satisfaction : ℚ := 1/2
  loyalty : ℚ := 3/10
  churn_probability : ℚ := 1/10
  lifetime_value : ℚ := 50000
  decision_speed : ℚ := 1/2
  price_sensitivity : ℚ := 1/2
  feature_preferences : List (String × ℚ) := []
  adoption_rate : ℚ := 1/2
  support_tickets_per_month : ℕ := 2
  expansion_potential : ℚ := 3/10
  contract_length : ℕ := 12
  renewal_probability : ℚ := 8/10
deriving DecidableEq, Repr

/-- The market-conditions values read by
`VirtualCustomer.update_churn_probability`, after the `.get(key, 0)`
defaulting that the method applies to the conditions dictionary. -/
structure ChurnInputs where
  competitive_pressure : ℚ
  economic_growth : ℚ
  price_increase : ℚ
deriving DecidableEq, Repr

/-- The weighted-sum churn formula of
`VirtualCustomer.update_churn_probability`: base churn plus
dissatisfaction, disloyalty, market-stress threshold terms and the
price-sensitivity term, clamped above by `min(0.8, ...)`. -/
def churnFormula (satisfaction loyalty price_sensitivity : ℚ)
    (mc : ChurnInputs) : ℚ :=
  let base_churn : ℚ := 1/10
  let satisfaction_impact := (1 - satisfaction) * (3/10)
  let loyalty_impact := (1 - loyalty) * (2/10)
  let market_impact :=
    (if mc.competitive_pressure > 7/10 then (1/10 : ℚ) else 0) +
    (if mc.economic_growth < 3/10 then (15/100 : ℚ) else 0)
  let price_impact :=
    if mc.price_increase > 0 then
      price_sensitivity * mc.price_increase * (2/10)
    else 0
  min (4/5) (base_churn + satisfaction_impact + loyalty_impact +
             market_impact + price_impact)

/-- Method `VirtualCustomer.update_churn_probability` as a state update on the
customer. -/
def VirtualCustomer.update_churn_probability (c : VirtualCustomer)
    (mc : ChurnInputs) : VirtualCustomer :=
  { c with churn_probability :=
      churnFormula c.satisfaction c.loyalty c.price_sensitivity mc }

/-- The per-customer churn recomputation loop of
`AdvancedMarketSimulator.simulate_market_dynamics`. -/
def updatePopulationChurn (mc : ChurnInputs)
    (cs : List VirtualCustomer) : List VirtualCustomer :=
  cs.map (fun c => c.update_churn_probability mc)

/-! ## Aggregate customer metrics (`simulate_market_dynamics`) -/

/-- A NumPy double: either a finite value or NaN. -/
inductive NpFloat where
  | val (q : ℚ)
  | nan
deriving DecidableEq, Repr

/-- Model of `np.mean` over a Python list: the mean of a nonempty list, and NaN
on the empty list (NumPy emits a runtime warning and returns `nan`). -/
def npMean (l : List ℚ) : NpFloat :=
  if l.isEmpty then .nan else .val (l.sum / l.length)

/-- The `customer_metrics` record assembled by
`simulate_market_dynamics`. -/
structure CustomerMetrics where
  total_customers : ℕ
  churned_customers : ℕ
  churn_rate : ℚ
  expansion_opportunities : ℕ
  avg_satisfaction : NpFloat
  avg_loyalty : NpFloat
deriving DecidableEq, Repr

/-- The `customer_metrics` dictionary built at the end of
`simulate_market_dynamics`, from the surviving population, the churned
count and the expansion-opportunity count.  The churn rate divides by
`max(1, survivors + churned)`; the averages are `np.mean` over the
survivors' fields. -/
def customerMetrics (survivors : List VirtualCustomer)
    (churned : ℕ) (expansions : ℕ) : CustomerMetrics :=
  { total_customers := survivors.length
    churned_customers := churned
    churn_rate := (churned : ℚ) / (max 1 (survivors.length + churned) : ℕ)
    expansion_opportunities := expansions
    avg_satisfaction := npMean (survivors.map VirtualCustomer.satisfaction)
    avg_loyalty := npMean (survivors.map VirtualCustomer.loyalty) }

/-! ## Competitive landscape (`_update_competitive_landscape`) -/

/-- One entry of the `competitive_landscape` dictionary. -/
structure Competitor where
  name : String
  share : ℚ
  strength : ℚ
deriving DecidableEq, Repr

/-- The `competitive_landscape` set up in
`AdvancedMarketSimulator.__init__`. -/
def initLandscape : List Competitor :=
  [⟨"market_leader", 35/100, 9/10⟩,
   ⟨"challenger_1", 25/100, 8/10⟩,
   ⟨"challenger_2", 20/100, 7/10⟩,
   ⟨"our_company", 5/100, 6/10⟩,
   ⟨"others", 15/100, 5/10⟩]

/-- The per-competitor share update of
`_update_competitive_landscape`: a random perturbation `u` (drawn from
`uniform(-0.02, 0.02)`), a strength-dependent bias of `±0.01` when gdp
growth is negative, then the clamp `max(0.01, min(0.8, share + change))`. -/
def clampedShare (gdp share strength u : ℚ) : ℚ :=
  let change :=
    u + (if gdp < 0 then (if strength > 7/10 then (1/100 : ℚ) else -(1/100)) else 0)
  max (1/100) (min (4/5) (share + change))

/-- The first loop of `_update_competitive_landscape`: each competitor's
share replaced by its clamped update (the `i`-th competitor consuming the
`i`-th random draw). -/
def clampShares (gdp : ℚ) (u : ℕ → ℚ) : ℕ → List Competitor → List Competitor
  | _, [] => []
  | i, c :: rest =>
      { c with share := clampedShare gdp c.share c.strength (u i) } ::
        clampShares gdp u (i + 1) rest

/-- Model of `AdvancedMarketSimulator._update_competitive_landscape`: clamp every
share, then renormalize by the total of the clamped shares. -/
def updateCompetitiveLandscape (gdp : ℚ) (u : ℕ → ℚ)
    (L : List Competitor) : List Competitor :=
  let clamped := clampShares gdp u 0 L
  let total := (clamped.map Competitor.share).sum
  clamped.map (fun c => { c with share := c.share / total })

/-! ## Messaging subsystem (`CommunicationSystem`) -/

/-- The `MessageType` enum. -/
inductive MessageType where
  | task_assignment
  | collaboration_request
  | decision_notification
  | status_update
  | meeting_request
  | budget_request
  | approval_request
  | general_communication
  | crisis_alert
deriving DecidableEq, Repr

/-- The `Priority` enum. -/
inductive Priority where
  | low
  | medium
  | high
  | urgent
  | critical
deriving DecidableEq, Repr

/-- Numeric value of each priority level, as in the `Priority` enum. -/
def Priority.value : Priority → ℕ
  | .low => 1
  | .medium => 2
  | .high => 3
  | .urgent => 4
  | .critical => 5

/-- The `Message` dataclass.  Ids are naturals (uuid generation is
modelled by a fresh-id counter); timestamps are naturals; metadata keeps
the id-valued entries (`in_reply_to`, `negotiation_id`) the code stores. -/
structure Message where
  id : ℕ
  sender_id : String
  receiver_id : String
  message_type : MessageType
  subject : String
  content : String
  priority : Priority
  created_at : ℕ
  read_at : Option ℕ := none
  responded_at : Option ℕ := none
  metadata : List (String × ℕ) := []
deriving DecidableEq, Repr

/-- The state of `CommunicationSystem` touched by the modelled
operations: the global message list, the notification log of
`NotificationSystem` (receiver, message id pairs) and the fresh-id
counter. -/
structure CommState where
  messages : List Message
  notifications : List (String × ℕ) := []
  nextId : ℕ := 0
deriving DecidableEq, Repr

/-- Model of `CommunicationSystem.send_message`: builds the message with a fresh
id and no read/responded timestamps, appends it to the message list, and
logs a notification when the priority is at least `HIGH`. -/
def sendMessage (now : ℕ) (sender receiver : String) (mtype : MessageType)
    (subject content : String) (priority : Priority)
    (metadata : List (String × ℕ)) (st : CommState) : ℕ × CommState :=
  let m : Message :=
    { id := st.nextId, sender_id := sender, receiver_id := receiver
      message_type := mtype, subject := subject, content := content
      priority := priority, created_at := now, metadata := metadata }
  let st1 : CommState :=
    { st with messages := st.messages ++ [m], nextId := st.nextId + 1 }
  let st2 :=
    if Priority.high.value ≤ priority.value then
      { st1 with notifications := st1.notifications ++ [(receiver, m.id)] }
    else st1
  (m.id, st2)

/-- Model of `CommunicationSystem.mark_message_read`: scan the message list for
the first message whose id matches and whose receiver is the reader; set
its read timestamp and return true, or return false leaving the list
unchanged. -/
def markMessageRead (now : ℕ) (mid : ℕ) (reader : String) :
    List Message → Bool × List Message
  | [] => (false, [])
  | m :: rest =>
      if m.id = mid ∧ m.receiver_id = reader then
        (true, { m with read_at := some now } :: rest)
      else
        let r := markMessageRead now mid reader rest
        (r.1, m :: r.2)

/-- The lookup loop at the top of
`CommunicationSystem.respond_to_message`: the first message with the
given id. -/
def findMessage (mid : ℕ) (msgs : List Message) : Option Message :=
  msgs.find? (fun m => m.id = mid)

/-- Overwrite the responded-at timestamp of the first message with the
given id. -/
def setRespondedAt (now : ℕ) (mid : ℕ) : List Message → List Message
  | [] => []
  | m :: rest =>
      if m.id = mid then { m with responded_at := some now } :: rest
      else m :: setRespondedAt now mid rest

/-- Model of `CommunicationSystem.respond_to_message`: if no message carries the
original id, return `none` with the state unchanged; otherwise overwrite
the original's responded-at timestamp with the current time and send the
response message back to the original sender. -/
def respondToMessage (now : ℕ) (origId : ℕ) (response_content : String)
    (sender : String) (st : CommState) : Option ℕ × CommState :=
  match findMessage origId st.messages with
  | none => (none, st)
  | some orig =>
      let st1 : CommState := { st with messages := setRespondedAt now origId st.messages }
      let r := sendMessage now sender orig.sender_id .general_communication
        ("Re: " ++ orig.subject) response_content orig.priority
        [("in_reply_to", origId)] st1
      (some r.1, r.2)

/-! ## Negotiation subsystem (`NegotiationSystem`) -/

/-- The negotiation status strings used by the code. -/
inductive NegStatus where
  | active
  | resolved
deriving DecidableEq, Repr

/-- A proposal dictionary: an opaque payload, plus the `proposed_by` and
`timestamp` keys `add_counter_proposal` writes into it. -/
structure Proposal where
  payload : String
  proposed_by : Option String := none
  timestamp : Option ℕ := none
deriving DecidableEq, Repr

/-- The negotiation dictionary created by `initiate_negotiation`. -/
structure Negotiation where
  id : ℕ
  initiator : String
  other_party : String
  topic : String
  status : NegStatus
  proposals : List Proposal
  created_at : ℕ
  resolution : Option String := none
  resolved_at : Option ℕ := none
deriving DecidableEq, Repr

/-- The state of `NegotiationSystem`: its communication system, the
active-negotiation dictionary (an association list keyed by negotiation
id), the resolution history, and a fresh-id counter for negotiation
ids. -/
structure NegotiationSt where
  comm : CommState
  active_negotiations : List (ℕ × Negotiation) := []
  resolution_history : List Negotiation := []
  nextNegId : ℕ := 0
deriving DecidableEq, Repr

/-- In-place update of a dictionary entry, as the Python code mutates
`active_negotiations[negotiation_id]`. -/
def updateAssoc (l : List (ℕ × Negotiation)) (k : ℕ) (v : Negotiation) :
    List (ℕ × Negotiation) :=
  l.map (fun p => if p.1 = k then (k, v) else p)

/-- Model of `NegotiationSystem.initiate_negotiation`: create an active
negotiation holding the initial proposal, register it in the active set,
and send a high-priority collaboration request to the counterparty. -/
def initiateNegotiation (now : ℕ) (initiator other_party topic : String)
    (initial_proposal : Proposal) (st : NegotiationSt) : ℕ × NegotiationSt :=
  let nid := st.nextNegId
  let neg : Negotiation :=
    { id := nid, initiator := initiator, other_party := other_party
      topic := topic, status := .active, proposals := [initial_proposal]
      created_at := now }
  let r := sendMessage now initiator other_party .collaboration_request
    ("Negotiation Request: " ++ topic)
    ("Proposal: " ++ initial_proposal.payload) .high
    [("negotiation_id", nid)] st.comm
  (nid, { st with comm := r.2
                  active_negotiations := st.active_negotiations ++ [(nid, neg)]
                  nextNegId := st.nextNegId + 1 })

/-- Model of `NegotiationSystem.add_counter_proposal`: fail (no-op, false) when
the id is not in the active set; otherwise tag the proposal with its
proposer and timestamp, append it to the negotiation's proposal
sequence, and message the other party. -/
def addCounterProposal (now : ℕ) (nid : ℕ) (agent : String)
    (proposal : Proposal) (st : NegotiationSt) : Bool × NegotiationSt :=
  match st.active_negotiations.lookup nid with
  | none => (false, st)
  | some neg =>
      let proposal' :=
        { proposal with proposed_by := some agent, timestamp := some now }
      let neg' := { neg with proposals := neg.proposals ++ [proposal'] }
      let other :=
        if agent = neg.initiator then neg.other_party else neg.initiator
      let r := sendMessage now agent other .general_communication
        ("Counter-proposal: " ++ neg.topic)
        ("New proposal: " ++ proposal'.payload) .high
        [("negotiation_id", nid)] st.comm
      (true, { st with comm := r.2
                       active_negotiations := updateAssoc st.active_negotiations nid neg' })

/-- The resolved-notification message `resolve_negotiation` sends to one
participant, with the fresh id it receives. -/
def resolutionMessage (now : ℕ) (mid : ℕ) (participant topic res : String) :
    Message :=
  { id := mid, sender_id := "system", receiver_id := participant
    message_type := .decision_notification
    subject := "Negotiation Resolved: " ++ topic
    content := "Resolution: " ++ res
    priority := .high, created_at := now }

/-- Model of `NegotiationSystem.resolve_negotiation`: fail (false, no-op) when the
id is not in the active set; otherwise mark the negotiation resolved with
the single resolution payload, append it to the resolution history,
delete it from the active set, and message both participants. -/
def resolveNegotiation (now : ℕ) (nid : ℕ) (res : String)
    (st : NegotiationSt) : Bool × NegotiationSt :=
  match st.active_negotiations.lookup nid with
  | none => (false, st)
  | some neg =>
      let neg' :=
        { neg with status := .resolved, resolution := some res
                   resolved_at := some now }
      let r1 := sendMessage now "system" neg.initiator .decision_notification
        ("Negotiation Resolved: " ++ neg.topic) ("Resolution: " ++ res)
        .high [] st.comm
      let r2 := sendMessage now "system" neg.other_party .decision_notification
        ("Negotiation Resolved: " ++ neg.topic) ("Resolution: " ++ res)
        .high [] r1.2
      (true, { st with comm := r2.2
                       active_negotiations :=
                         st.active_negotiations.filter (fun p => p.1 != nid)
                       resolution_history := st.resolution_history ++ [neg'] })

/-! ## Sample data for concrete evaluations -/

/-- A concrete virtual customer, with attribute values inside the ranges
used by `_generate_virtual_customers`. -/
def sampleCustomer : VirtualCustomer :=
  { id := "customer_000", name := "Technology Corp 000", segment := .smb
    industry := "Technology", size := 50, budget := 20000
    satisfaction := 1/2, loyalty := 2/5, churn_probability := 1/10
    lifetime_value := 40000, decision_speed := 1/2, price_sensitivity := 1/2
    adoption_rate := 1/2, expansion_potential := 3/10 }

/-- A concrete stored message that has already been responded to. -/
def sampleOriginal : Message :=
  { id := 0, sender_id := "CEO", receiver_id := "CFO"
    message_type := .budget_request, subject := "Q3 budget"
    content := "numbers", priority := .high, created_at := 1
    responded_at := some 5 }

/-- A concrete communication-system state holding `sampleOriginal`. -/
def sampleCommState : CommState := { messages := [sampleOriginal], nextId := 1 }

/-- The negotiation created by initiating from a fresh negotiation
system. -/
def sampleNegotiation : Negotiation :=
  { id := 0, initiator := "CEO", other_party := "CFO", topic := "budget"
    status := .active, proposals := [⟨"p0", none, none⟩], created_at := 1 }

/-- A concrete negotiation-system state with one active negotiation,
built by `initiate_negotiation` from a fresh system. -/
def sampleNegotiationSt : NegotiationSt :=
  (initiateNegotiation 1 "CEO" "CFO" "budget" ⟨"p0", none, none⟩
    { comm := { messages := [] } }).2

/-- The indicator bounds that hold of a state `s'` produced by an
economic-cycle advance whose previous inflation rate was `inf0` and
previous market volatility was `v0`: the four redrawn indicators sit
within the per-phase hardcoded ranges of `_update_economic_indicators`,
and the two indicators the method never touches keep their previous
values. -/
def IndicatorBounds (inf0 v0 : ℚ) (s' : EconState) : Prop :=
  gdpLo s'.current_phase ≤ s'.gdp_growth ∧
  s'.gdp_growth ≤ gdpHi s'.current_phase ∧
  unempLo s'.current_phase ≤ s'.unemployment_rate ∧
  s'.unemployment_rate ≤ unempHi s'.current_phase ∧
  ratesLo s'.current_phase ≤ s'.interest_rates ∧
  s'.interest_rates ≤ ratesHi s'.current_phase ∧
  techLo s'.current_phase ≤ s'.tech_sector_performance ∧
  s'.tech_sector_performance ≤ techHi s'.current_phase ∧
  s'.inflation_rate = inf0 ∧
  s'.market_volatility = v0

/-! ## Simulation scheduler (`OrganizationalSimulator.advance_day`) -/

/-- The result of `advance_day`: the "simulation_not_running" status
dictionary, or the daily snapshot. -/
inductive AdvanceResult (α : Type) where
  | not_running
  | snapshot (s : α)
deriving DecidableEq, Repr

/-- The simulator state threaded by `advance_day`: the day counter, the
running flag, the rolling snapshot window, and the rest of the mutable
simulation state (market simulator, agents, metrics, communication),
bundled as `world`. -/
structure SimulatorState (σ : Type) (α : Type) where
  simulation_day : ℕ
  is_running : Bool
  daily_snapshots : List α
  world : σ
deriving Repr

/-- Model of `OrganizationalSimulator.advance_day`.  When the running flag is
false it returns the "simulation_not_running" status and touches
nothing.  Otherwise it increments the day counter, runs the day body
(market dynamics, agent activities, collaborations, negotiations, metric
updates and snapshot assembly — these call the external text responder
and ambient randomness, so the body is passed as a parameter), appends
the produced snapshot and trims the window to the last 365 entries. -/
def advance_day {σ α : Type}
    (body : SimulatorState σ α → α × SimulatorState σ α)
    (st : SimulatorState σ α) : AdvanceResult α × SimulatorState σ α :=
  if st.is_running = false then (.not_running, st)
  else
    let st1 := { st with simulation_day := st.simulation_day + 1 }
    let r := body st1
    let snaps := r.2.daily_snapshots ++ [r.1]
    let snaps' :=
      if 365 < snaps.length then snaps.drop (snaps.length - 365) else snaps
    (.snapshot r.1, { r.2 with daily_snapshots := snaps' })

/-! ## Theorems -/

/-- C8: for every scheduler state whose running flag is false, and every
day body, `advance_day` returns the defined "not running" result and
leaves the whole simulation state (day counter, snapshots, world)
unchanged. -/
theorem advance_day_stopped_noop {σ α : Type}
    (body : SimulatorState σ α → α × SimulatorState σ α)
    (st : SimulatorState σ α) (h : st.is_running = false) :
    advance_day body st = (.not_running, st) := by
  simp [advance_day, h]

/-- C8 witness: advancing a concrete stopped state is a no-op. -/
theorem advance_day_stopped_noop_witness :
    advance_day (fun s => ((), s))
      ({ simulation_day := 5, is_running := false, daily_snapshots := [],
         world := () } : SimulatorState Unit Unit) =
      (.not_running,
       { simulation_day := 5, is_running := false, daily_snapshots := [],
         world := () }) :=
  advance_day_stopped_noop _ _ rfl

/-- C3: on an empty surviving population the aggregate customer metrics
of `simulate_market_dynamics` give NaN for the average satisfaction and
loyalty (`np.mean` of an empty list), while the churn rate alone is
guarded by `max(1, ...)`; the spec requires a defined "no data" sentinel
instead of NaN, so this evaluation exhibits the divergence. -/
theorem empty_population_metrics_nan :
    (customerMetrics [] 100 0).avg_satisfaction = NpFloat.nan ∧
    (customerMetrics [] 100 0).avg_loyalty = NpFloat.nan ∧
    (customerMetrics [] 100 0).churn_rate = 1 := by
  refine ⟨rfl, rfl, ?_⟩
  norm_num [customerMetrics]

/-- The success flag of `mark_message_read` is true exactly when some
stored message has the requested id and the reader as its receiver. -/
theorem markMessageRead_fst_iff (now mid : ℕ) (reader : String)
    (msgs : List Message) :
    (markMessageRead now mid reader msgs).1 = true ↔
      ∃ m ∈ msgs, m.id = mid ∧ m.receiver_id = reader := by
  induction msgs with
  | nil => simp [markMessageRead]
  | cons m rest ih =>
      by_cases h : m.id = mid ∧ m.receiver_id = reader
      · simp [markMessageRead, h]
      · simp only [markMessageRead, if_neg h, List.mem_cons]
        constructor
        · intro h1
          obtain ⟨x, hx, hids⟩ := ih.mp h1
          exact ⟨x, Or.inr hx, hids⟩
        · rintro ⟨x, hx | hx, hids⟩
          · exact absurd (hx ▸ hids) h
          · exact ih.mpr ⟨x, hx, hids⟩

/-- When no stored message matches both the id and the reader,
`mark_message_read` returns false and leaves the message list
unchanged. -/
theorem markMessageRead_miss (now mid : ℕ) (reader : String)
    (msgs : List Message)
    (h : ∀ m ∈ msgs, m.id = mid → m.receiver_id ≠ reader) :
    markMessageRead now mid reader msgs = (false, msgs) := by
  induction msgs with
  | nil => rfl
  | cons m rest ih =>
      have hm : ¬ (m.id = mid ∧ m.receiver_id = reader) := by
        rintro ⟨h1, h2⟩
        exact h m (List.mem_cons_self m rest) h1 h2
      have hrest := ih (fun x hx => h x (List.mem_cons_of_mem m hx))
      simp [markMessageRead, hm, hrest]

/-- C10: `mark_message_read` succeeds exactly when the supplied reader
is the receiver of a stored message with the supplied id; whenever every
stored message with that id has a different receiver, it returns false
and no message changes. -/
theorem mark_read_receiver_only (now mid : ℕ) (reader : String)
    (msgs : List Message) :
    ((markMessageRead now mid reader msgs).1 = true ↔
      ∃ m ∈ msgs, m.id = mid ∧ m.receiver_id = reader) ∧
    ((∀ m ∈ msgs, m.id = mid → m.receiver_id ≠ reader) →
      markMessageRead now mid reader msgs = (false, msgs)) :=
  ⟨markMessageRead_fst_iff now mid reader msgs,
   markMessageRead_miss now mid reader msgs⟩

/-- C10 witness: presenting an existing message id with a reader other
than the receiver returns false and changes nothing. -/
theorem mark_read_receiver_only_witness :
    markMessageRead 3 0 "Alice" sampleCommState.messages =
      (false, sampleCommState.messages) :=
  (mark_read_receiver_only 3 0 "Alice" sampleCommState.messages).2 (by decide)

/-- The weighted-sum churn formula is clamped into `[0, 0.8]` for every
customer whose satisfaction and loyalty are at most 1 and whose price
sensitivity is nonnegative, under arbitrary market conditions. -/
theorem churnFormula_mem (sat loy ps : ℚ) (mc : ChurnInputs)
    (hs : sat ≤ 1) (hl : loy ≤ 1) (hp : 0 ≤ ps) :
    0 ≤ churnFormula sat loy ps mc ∧ churnFormula sat loy ps mc ≤ 4/5 := by
  refine ⟨le_min (by norm_num) ?_, min_le_left _ _⟩
  have h1 : (0 : ℚ) ≤ (1 - sat) * (3/10) := by nlinarith
  have h2 : (0 : ℚ) ≤ (1 - loy) * (2/10) := by nlinarith
  have h3 : (0 : ℚ) ≤
      (if mc.competitive_pressure > 7/10 then (1/10 : ℚ) else 0) := by
    split <;> norm_num
  have h4 : (0 : ℚ) ≤
      (if mc.economic_growth < 3/10 then (15/100 : ℚ) else 0) := by
    split <;> norm_num
  have h5 : (0 : ℚ) ≤
      (if mc.price_increase > 0 then ps * mc.price_increase * (2/10) else 0) := by
    split_ifs with hpi
    · nlinarith
    · exact le_refl 0
  linarith

/-- C2: after the per-customer churn recomputation performed by the
population update of `simulate_market_dynamics`, every customer's churn
probability lies in `[0, 0.8]`, for every market-conditions input and
every customer whose satisfaction/loyalty are at most 1 and whose price
sensitivity is nonnegative (the ranges the population generator and every
satisfaction/loyalty update maintain). -/
theorem update_population_churn_in_range (mc : ChurnInputs)
    (cs : List VirtualCustomer)
    (hinv : ∀ c ∈ cs,
      c.satisfaction ≤ 1 ∧ c.loyalty ≤ 1 ∧ 0 ≤ c.price_sensitivity) :
    ∀ c ∈ updatePopulationChurn mc cs,
      0 ≤ c.churn_probability ∧ c.churn_probability ≤ 4/5 := by
  intro c hc
  simp only [updatePopulationChurn, List.mem_map] at hc
  obtain ⟨c0, hc0, rfl⟩ := hc
  obtain ⟨h1, h2, h3⟩ := hinv c0 hc0
  simpa [VirtualCustomer.update_churn_probability] using
    churnFormula_mem c0.satisfaction c0.loyalty c0.price_sensitivity mc h1 h2 h3

/-- C2 witness: the recomputed churn probability of a concrete customer
under concrete market conditions lies in `[0, 0.8]`. -/
theorem update_population_churn_in_range_witness :
    0 ≤ (sampleCustomer.update_churn_probability ⟨0, 0, 0⟩).churn_probability ∧
    (sampleCustomer.update_churn_probability ⟨0, 0, 0⟩).churn_probability ≤ 4/5 :=
  update_population_churn_in_range ⟨0, 0, 0⟩ [sampleCustomer]
    (by norm_num [sampleCustomer]) _ (by simp [updatePopulationChurn])

/-- Each clamped share of `_update_competitive_landscape` sits in
`[0.01, 0.8]`, for every random perturbation. -/
theorem clampedShare_mem (gdp share strength u : ℚ) :
    1/100 ≤ clampedShare gdp share strength u ∧
    clampedShare gdp share strength u ≤ 4/5 := by
  simp only [clampedShare]
  exact ⟨le_max_left _ _, max_le (by norm_num) (min_le_left _ _)⟩

/-- Every share produced by the clamping loop sits in `[0.01, 0.8]`. -/
theorem clampShares_mem (gdp : ℚ) (u : ℕ → ℚ) (i : ℕ) (L : List Competitor) :
    ∀ c ∈ clampShares gdp u i L, 1/100 ≤ c.share ∧ c.share ≤ 4/5 := by
  induction L generalizing i with
  | nil => intro c hc; cases hc
  | cons c0 rest ih =>
      intro c hc
      simp only [clampShares, List.mem_cons] at hc
      rcases hc with rfl | hc
      · exact clampedShare_mem gdp c0.share c0.strength (u i)
      · exact ih (i + 1) c hc

/-- The clamping loop preserves the number of competitors. -/
theorem clampShares_ne_nil (gdp : ℚ) (u : ℕ → ℚ) (i : ℕ)
    (L : List Competitor) (hne : L ≠ []) : clampShares gdp u i L ≠ [] := by
  cases L with
  | nil => exact absurd rfl hne
  | cons c rest => simp [clampShares]

/-- The clamped share total is positive whenever the landscape is
nonempty. -/
theorem sum_shares_pos (l : List Competitor) (hne : l ≠ [])
    (h : ∀ c ∈ l, 1/100 ≤ c.share) : 0 < (l.map Competitor.share).sum := by
  cases l with
  | nil => exact absurd rfl hne
  | cons c rest =>
      have hc : (1/100 : ℚ) ≤ c.share := h c (List.mem_cons_self c rest)
      have hrest : 0 ≤ (rest.map Competitor.share).sum := by
        apply List.sum_nonneg
        intro x hx
        simp only [List.mem_map] at hx
        obtain ⟨y, hy, rfl⟩ := hx
        linarith [h y (List.mem_cons_of_mem c hy)]
      simp only [List.map_cons, List.sum_cons]
      linarith

/-- Dividing every share by a constant divides the share total by that
constant. -/
theorem sum_map_share_div (l : List Competitor) (t : ℚ) :
    ((l.map (fun c => { c with share := c.share / t })).map
      Competitor.share).sum = (l.map Competitor.share).sum / t := by
  induction l with
  | nil => simp
  | cons c rest ih =>
      simp only [List.map_cons, List.sum_cons, ih]
      rw [add_div]

/-- C1: after `_update_competitive_landscape`, every clamped share lies
in `[0.01, 0.8]` before renormalization, the renormalized shares sum to
exactly 1, and every renormalized share lies in `[0, 1]` — for every gdp
growth value, every sequence of random perturbations and every nonempty
landscape. -/
theorem landscape_update_normalized (gdp : ℚ) (u : ℕ → ℚ)
    (L : List Competitor) (hne : L ≠ []) :
    (∀ c ∈ clampShares gdp u 0 L, 1/100 ≤ c.share ∧ c.share ≤ 4/5) ∧
    ((updateCompetitiveLandscape gdp u L).map Competitor.share).sum = 1 ∧
    (∀ c ∈ updateCompetitiveLandscape gdp u L,
      0 ≤ c.share ∧ c.share ≤ 1) := by
  have hclamp := clampShares_mem gdp u 0 L
  have hnil := clampShares_ne_nil gdp u 0 L hne
  have hpos : 0 < ((clampShares gdp u 0 L).map Competitor.share).sum :=
    sum_shares_pos _ hnil (fun c hc => (hclamp c hc).1)
  refine ⟨hclamp, ?_, ?_⟩
  · simp only [updateCompetitiveLandscape]
    rw [sum_map_share_div]
    exact div_self (ne_of_gt hpos)
  · intro c hc
    simp only [updateCompetitiveLandscape, List.mem_map] at hc
    obtain ⟨c0, hc0, rfl⟩ := hc
    have h1 : (1/100 : ℚ) ≤ c0.share := (hclamp c0 hc0).1
    have hle : c0.share ≤ ((clampShares gdp u 0 L).map Competitor.share).sum := by
      apply List.single_le_sum
      · intro x hx
        simp only [List.mem_map] at hx
        obtain ⟨y, hy, rfl⟩ := hx
        linarith [(hclamp y hy).1]
      · exact List.mem_map_of_mem Competitor.share hc0
    constructor
    · positivity
    · exact (div_le_one hpos).mpr hle

/-- C1 witness: updating the initial landscape with concrete draws
yields shares summing to 1. -/
theorem landscape_update_normalized_witness :
    ((updateCompetitiveLandscape (25/1000) (fun _ => 0)
        initLandscape).map Competitor.share).sum = 1 :=
  (landscape_update_normalized (25/1000) (fun _ => 0) initLandscape
    (by simp [initLandscape])).2.1

/-- A uniform draw with `u ∈ [0, 1]` lands inside `[a, b]`. -/
theorem unif_mem (a b u : ℚ) (hab : a ≤ b) (h0 : 0 ≤ u) (h1 : u ≤ 1) :
    a ≤ unif a b u ∧ unif a b u ≤ b := by
  simp only [unif]
  constructor <;> nlinarith

/-- Method `_update_economic_indicators` never changes the current phase. -/
theorem updateEconomicIndicators_phase (s : EconState) (u1 u2 u3 u4 : ℚ) :
    (updateEconomicIndicators s u1 u2 u3 u4).current_phase =
      s.current_phase := by
  obtain ⟨p, dur, ir, inf, ur, g, v, t⟩ := s
  cases p <;> rfl

/-- After `_update_economic_indicators`, the four redrawn indicators sit
inside the per-phase hardcoded ranges, and the inflation rate and market
volatility are exactly the previous values. -/
theorem updateEconomicIndicators_bounds (s : EconState) (u1 u2 u3 u4 : ℚ)
    (h1 : 0 ≤ u1) (h1' : u1 ≤ 1) (h2 : 0 ≤ u2) (h2' : u2 ≤ 1)
    (h3 : 0 ≤ u3) (h3' : u3 ≤ 1) (h4 : 0 ≤ u4) (h4' : u4 ≤ 1) :
    IndicatorBounds s.inflation_rate s.market_volatility
      (updateEconomicIndicators s u1 u2 u3 u4) := by
  obtain ⟨p, dur, ir, inf, ur, g, v, t⟩ := s
  cases p <;>
    · dsimp only [IndicatorBounds, updateEconomicIndicators, gdpLo, gdpHi,
        unempLo, unempHi, ratesLo, ratesHi, techLo, techHi]
      exact ⟨(unif_mem _ _ _ (by norm_num) h1 h1').1,
             (unif_mem _ _ _ (by norm_num) h1 h1').2,
             (unif_mem _ _ _ (by norm_num) h2 h2').1,
             (unif_mem _ _ _ (by norm_num) h2 h2').2,
             (unif_mem _ _ _ (by norm_num) h3 h3').1,
             (unif_mem _ _ _ (by norm_num) h3 h3').2,
             (unif_mem _ _ _ (by norm_num) h4 h4').1,
             (unif_mem _ _ _ (by norm_num) h4 h4').2,
             rfl, rfl⟩

/-- C4 counterexample: the claim says every economic indicator,
inflation rate and volatility included, is redrawn within the phase's
hardcoded bounds on every advance.  Starting from the initial state with
inflation rate forced to 42 and volatility to 37 — values outside every
hardcoded range of `_update_economic_indicators`, all of which lie within
`[-0.03, 1]` — one advance leaves both values untouched, so neither is
redrawn within any bound. -/
theorem inflation_volatility_not_redrawn :
    (advanceCycle
      { initEconState with inflation_rate := 42, market_volatility := 37 }
      ⟨0, 0, 0, 0, 0⟩).inflation_rate = 42 ∧
    (advanceCycle
      { initEconState with inflation_rate := 42, market_volatility := 37 }
      ⟨0, 0, 0, 0, 0⟩).market_volatility = 37 :=
  ⟨rfl, rfl⟩

/-- C4 (amended): on every call to `advance_cycle`, after phase
resolution, the indicators gdp growth, unemployment rate, interest rate
and tech-sector performance are redrawn uniformly within the resolved
phase's hardcoded bounds, while the inflation rate and market volatility
are never updated and keep their previous values. -/
theorem advanceCycle_indicator_bounds (s : EconState) (d : Draws)
    (h1 : 0 ≤ d.u1) (h1' : d.u1 ≤ 1) (h2 : 0 ≤ d.u2) (h2' : d.u2 ≤ 1)
    (h3 : 0 ≤ d.u3) (h3' : d.u3 ≤ 1) (h4 : 0 ≤ d.u4) (h4' : d.u4 ≤ 1) :
    IndicatorBounds s.inflation_rate s.market_volatility
      (advanceCycle s d) := by
  exact updateEconomicIndicators_bounds _
    d.u1 d.u2 d.u3 d.u4 h1 h1' h2 h2' h3 h3' h4 h4'

/-- C4 witness: one concrete advance from the initial state satisfies
the amended indicator bounds. -/
theorem advanceCycle_indicator_bounds_witness :
    IndicatorBounds initEconState.inflation_rate
      initEconState.market_volatility
      (advanceCycle initEconState ⟨0, 1/2, 1/2, 1/2, 1/2⟩) :=
  advanceCycle_indicator_bounds initEconState ⟨0, 1/2, 1/2, 1/2, 1/2⟩
    (by norm_num) (by norm_num) (by norm_num) (by norm_num)
    (by norm_num) (by norm_num) (by norm_num) (by norm_num)

/-- A single `advance_cycle` step never produces the Stagnation phase
from a non-Stagnation phase: every transition target in the elif chain is
Growth, Boom, Recession or Recovery, and the fall-through keeps the
current phase. -/
theorem advanceCycle_ne_stagnation (s : EconState) (d : Draws)
    (h : s.current_phase ≠ .stagnation) :
    (advanceCycle s d).current_phase ≠ .stagnation := by
  simp only [advanceCycle, updateEconomicIndicators_phase]
  split_ifs <;> simp_all

/-- Folding `advance_cycle` preserves the non-Stagnation invariant. -/
theorem foldl_advanceCycle_ne_stagnation (ds : List Draws) (s : EconState)
    (h : s.current_phase ≠ .stagnation) :
    (ds.foldl advanceCycle s).current_phase ≠ .stagnation := by
  induction ds generalizing s with
  | nil => exact h
  | cons d rest ih => exact ih _ (advanceCycle_ne_stagnation s d h)

set_option maxRecDepth 100000 in
/-- C9: starting from the engine's initial state (phase Growth), no
sequence of `advance_cycle` calls ever reaches Stagnation, while Growth,
Boom, Recession and Recovery are all reachable — so the reachable phases
are exactly those four and the Stagnation redraw branch is dead. -/
theorem stagnation_unreachable :
    (∀ ds : List Draws,
      (runCycle ds).current_phase ≠ MarketPhase.stagnation) ∧
    (runCycle []).current_phase = MarketPhase.growth ∧
    (runCycle (List.replicate 25 ⟨0, 0, 0, 0, 0⟩)).current_phase =
      MarketPhase.boom ∧
    (runCycle (List.replicate 38 ⟨0, 0, 0, 0, 0⟩)).current_phase =
      MarketPhase.recession ∧
    (runCycle (List.replicate 57 ⟨0, 0, 0, 0, 0⟩)).current_phase =
      MarketPhase.recovery := by
  refine ⟨?_, rfl, ?_, ?_, ?_⟩
  · intro ds
    exact foldl_advanceCycle_ne_stagnation ds initEconState (by decide)
  · with_unfolding_all rfl
  · with_unfolding_all rfl
  · with_unfolding_all rfl

/-- The message lookup finds nothing exactly when no stored message has
the id. -/
theorem findMessage_eq_none_iff (mid : ℕ) (l : List Message) :
    findMessage mid l = none ↔ ∀ m ∈ l, m.id ≠ mid := by
  simp [findMessage, List.find?_eq_none]

/-- Unfolding the message lookup over a cons cell. -/
theorem findMessage_cons (mid : ℕ) (m : Message) (l : List Message) :
    findMessage mid (m :: l) =
      if m.id = mid then some m else findMessage mid l := by
  by_cases h : m.id = mid
  · simp [findMessage, List.find?, h]
  · simp [findMessage, List.find?, h]

/-- A successful lookup in a prefix survives appending more messages. -/
theorem findMessage_append_of_some (mid : ℕ) (l1 l2 : List Message)
    (x : Message) (h : findMessage mid l1 = some x) :
    findMessage mid (l1 ++ l2) = some x := by
  induction l1 with
  | nil => simp [findMessage, List.find?] at h
  | cons m rest ih =>
      rw [findMessage_cons] at h
      rw [List.cons_append, findMessage_cons]
      by_cases hm : m.id = mid
      · rwa [if_pos hm] at h ⊢
      · rw [if_neg hm] at h ⊢
        exact ih h

/-- Overwriting the responded-at timestamp of the found message makes the
lookup return that message with its timestamp replaced. -/
theorem findMessage_setRespondedAt (now mid : ℕ) (l : List Message)
    (x : Message) (h : findMessage mid l = some x) :
    findMessage mid (setRespondedAt now mid l) =
      some { x with responded_at := some now } := by
  induction l with
  | nil => simp [findMessage, List.find?] at h
  | cons m rest ih =>
      rw [findMessage_cons] at h
      by_cases hm : m.id = mid
      · rw [if_pos hm] at h
        injection h with h
        subst h
        simp [setRespondedAt, hm, findMessage_cons]
      · rw [if_neg hm] at h
        simp only [setRespondedAt, if_neg hm]
        rw [findMessage_cons, if_neg hm]
        exact ih h

/-- C7: `respond_to_message` returns none exactly when the original
message id is unknown; when the original exists — already responded to or
not — it succeeds (returning the fresh response id) and the original's
responded-at timestamp is overwritten with the current time, so the last
responder wins. -/
theorem respond_none_iff_unknown (now origId : ℕ) (content sender : String)
    (st : CommState) :
    ((respondToMessage now origId content sender st).1 = none ↔
      ∀ m ∈ st.messages, m.id ≠ origId) ∧
    (∀ orig, findMessage origId st.messages = some orig →
      (respondToMessage now origId content sender st).1 = some st.nextId ∧
      findMessage origId
          (respondToMessage now origId content sender st).2.messages =
        some { orig with responded_at := some now }) := by
  cases hf : findMessage origId st.messages with
  | none =>
      refine ⟨?_, ?_⟩
      · constructor
        · intro _
          exact (findMessage_eq_none_iff origId st.messages).mp hf
        · intro _
          simp [respondToMessage, hf]
      · intro orig horig
        exact Option.noConfusion horig
  | some o =>
      have ho_mem : o ∈ st.messages := List.mem_of_find?_eq_some hf
      have ho_id : o.id = origId := by
        have := List.find?_some hf
        simpa using this
      refine ⟨?_, ?_⟩
      · constructor
        · intro h
          simp [respondToMessage, hf, sendMessage] at h
        · intro h
          exact absurd ho_id (h o ho_mem)
      · intro orig horig
        injection horig with horig
        subst horig
        constructor
        · simp [respondToMessage, hf, sendMessage]
        · simp only [respondToMessage, hf, sendMessage]
          split_ifs <;>
            exact findMessage_append_of_some origId _ _ _
              (findMessage_setRespondedAt now origId st.messages o hf)

/-- C7 witness: responding to a message that was already responded to at
time 5 succeeds and overwrites the responded-at timestamp with time 7. -/
theorem respond_none_iff_unknown_witness :
    (respondToMessage 7 0 "ok" "CFO" sampleCommState).1 = some 1 ∧
    findMessage 0
        (respondToMessage 7 0 "ok" "CFO" sampleCommState).2.messages =
      some { sampleOriginal with responded_at := some 7 } :=
  (respond_none_iff_unknown 7 0 "ok" "CFO" sampleCommState).2
    sampleOriginal (by decide)

/-- Deleting a key from the active-negotiation dictionary makes its
lookup fail. -/
theorem lookup_filter_self (l : List (ℕ × Negotiation)) (nid : ℕ) :
    (l.filter (fun p => p.1 != nid)).lookup nid = none := by
  induction l with
  | nil => rfl
  | cons p rest ih =>
      by_cases h : p.1 = nid
      · simpa [List.filter_cons, h] using ih
      · have hb : (p.1 != nid) = true := by simpa [bne_iff_ne] using h
        have hb2 : (nid == p.1) = false :=
          beq_eq_false_iff_ne.mpr (Ne.symm h)
        simp [List.filter_cons, hb, List.lookup, hb2, ih]

/-- C5: `add_counter_proposal` on a negotiation id that is not in the
active set — unknown, or archived by `resolve_negotiation` (which removes
every Resolved negotiation from the active set) — returns false and
leaves the whole state unchanged: no proposal is appended and no message
is sent.  In particular, after any successful resolve of an id, a
counter-proposal against that id is a no-op returning false. -/
theorem counter_proposal_not_active_noop (now nid : ℕ) (agent : String)
    (prop : Proposal) (st : NegotiationSt) :
    (st.active_negotiations.lookup nid = none →
      addCounterProposal now nid agent prop st = (false, st)) ∧
    (∀ res st2, resolveNegotiation now nid res st = (true, st2) →
      st2.active_negotiations.lookup nid = none ∧
      ∀ now2 agent2 prop2,
        addCounterProposal now2 nid agent2 prop2 st2 = (false, st2)) := by
  constructor
  · intro h
    simp [addCounterProposal, h]
  · intro res st2 hres
    cases hl : st.active_negotiations.lookup nid with
    | none =>
        rw [resolveNegotiation, hl] at hres
        simp at hres
    | some neg =>
        rw [resolveNegotiation, hl] at hres
        have hst2 : st2.active_negotiations =
            st.active_negotiations.filter (fun p => p.1 != nid) := by
          have := congrArg Prod.snd hres
          simp at this
          rw [← this]
        have hnone : st2.active_negotiations.lookup nid = none := by
          rw [hst2]
          exact lookup_filter_self st.active_negotiations nid
        refine ⟨hnone, ?_⟩
        intro now2 agent2 prop2
        simp [addCounterProposal, hnone]

/-- C5 witness: after resolving the sample negotiation, a
counter-proposal against its id returns false and changes nothing. -/
theorem counter_proposal_not_active_noop_witness :
    addCounterProposal 3 0 "CEO" ⟨"p1", none, none⟩
        (resolveNegotiation 2 0 "deal" sampleNegotiationSt).2 =
      (false, (resolveNegotiation 2 0 "deal" sampleNegotiationSt).2) :=
  (((counter_proposal_not_active_noop 2 0 "CEO" ⟨"p1", none, none⟩
      sampleNegotiationSt).2 "deal"
      (resolveNegotiation 2 0 "deal" sampleNegotiationSt).2
      (by decide)).2) 3 "CEO" ⟨"p1", none, none⟩

/-- C6: resolving an active negotiation returns true, removes it from
the active set, appends it to the resolution history with status Resolved
and exactly the one supplied resolution payload, and sends one message to
each of the two parties; resolving an unknown negotiation id returns
false and changes nothing. -/
theorem resolve_negotiation_spec (now nid : ℕ) (res : String)
    (st : NegotiationSt) :
    (st.active_negotiations.lookup nid = none →
      resolveNegotiation now nid res st = (false, st)) ∧
    (∀ neg, st.active_negotiations.lookup nid = some neg →
      (resolveNegotiation now nid res st).1 = true ∧
      (resolveNegotiation now nid res st).2.active_negotiations.lookup nid =
        none ∧
      (resolveNegotiation now nid res st).2.resolution_history =
        st.resolution_history ++
          [{ neg with status := .resolved, resolution := some res,
                      resolved_at := some now }] ∧
      (resolveNegotiation now nid res st).2.comm.messages =
        st.comm.messages ++
          [resolutionMessage now st.comm.nextId neg.initiator neg.topic res,
           resolutionMessage now (st.comm.nextId + 1) neg.other_party
             neg.topic res]) := by
  constructor
  · intro h
    simp [resolveNegotiation, h]
  · intro neg hneg
    refine ⟨?_, ?_, ?_, ?_⟩
    · simp [resolveNegotiation, hneg]
    · simp only [resolveNegotiation, hneg]
      exact lookup_filter_self st.active_negotiations nid
    · simp [resolveNegotiation, hneg]
    · simp [resolveNegotiation, hneg, sendMessage, resolutionMessage,
        Priority.value]

/-- C6 witness: resolving the sample active negotiation returns true and
removes the id from the active set. -/
theorem resolve_negotiation_spec_witness :
    (resolveNegotiation 2 0 "deal" sampleNegotiationSt).1 = true ∧
    (resolveNegotiation 2 0 "deal"
        sampleNegotiationSt).2.active_negotiations.lookup 0 = none ∧
    (resolveNegotiation 2 0 "deal" sampleNegotiationSt).2.resolution_history =
      [{ sampleNegotiation with status := .resolved, resolution := some "deal", resolved_at := some 2 }] :=
  And.intro
    ((resolve_negotiation_spec 2 0 "deal" sampleNegotiationSt).2
      sampleNegotiation (by decide)).1
    (And.intro
      ((resolve_negotiation_spec 2 0 "deal" sampleNegotiationSt).2
        sampleNegotiation (by decide)).2.1
      ((resolve_negotiation_spec 2 0 "deal" sampleNegotiationSt).2
        sampleNegotiation (by decide)).2.2.1)

end OrgTwin
